import Mathlib

/-
Verification of `parse_oif.py`: a script that extracts per-channel, per-depth
image slices and acquisition metadata from an OIF microscopy container,
writing each slice as a raster image inside a directory tree.

The Python functions are shallowly embedded as Lean definitions:
machine-independent numerics use ℚ and ℕ, Python strings become Lean
`String`s (compared by the same code-point lexicographic order), and the
stateful directory-materialization steps become explicit outcome values.
-/

/- ===== Decimal rendering (embedding of Python `str` on non-negative ints) ===== -/

/-- Fuel-based little-endian decimal digits; the fuel argument makes the
recursion structural so the kernel can evaluate it.  Agrees with
`Nat.digits 10` (proved below). -/
def toDigitsRevAux : Nat → Nat → List Nat
  | _, 0 => []
  | 0, _ + 1 => []
  | f + 1, n + 1 => ((n + 1) % 10) :: toDigitsRevAux f ((n + 1) / 10)

/-- Little-endian decimal digits of `n` (empty for `0`). -/
def pyDigits (n : Nat) : List Nat := toDigitsRevAux n n

/-- Most-significant-first decimal digit list of `n`, with `0` rendered as
`[0]`, exactly the digit sequence of Python's `str(n)` for `n ≥ 0`. -/
def pyStrDigits (n : Nat) : List Nat :=
  if n = 0 then [0] else (pyDigits n).reverse

/-- Embedding of Python's `str` on a non-negative integer: the usual decimal
rendering, most significant digit first. -/
def pyStr (n : Nat) : String := String.mk ((pyStrDigits n).map Nat.digitChar)

/-- Numeric value of a most-significant-first digit list (used to relate the
generated zero-padded filenames back to the depth index they encode). -/
def digitsVal (l : List Nat) : Nat := l.foldl (fun acc d => acc * 10 + d) 0

/- ===== scale_bit_image (parse_oif.py lines 24-42) ===== -/

/-- Embedding of `scale_bit_image` (lines 24-42): linear rescale of an
amplitude value from the full-scale range of a `bits`-bit unsigned sample
into `[new_min, new_max]`.  Python float arithmetic on these inputs is exact
rational arithmetic (before the final integer cast), so ℚ is used. -/
def scale_bit_image (image : ℚ) (bits : Nat) (img_min new_min new_max : ℚ) : ℚ :=
  let img_max : ℚ := 2 ^ bits - 1
  let scale_quotient := (new_max - new_min) / (img_max - img_min)
  scale_quotient * (image - img_min) + new_min

/-- Embedding of numpy's `astype(int)` on a float value (line 156): C-style
truncation toward zero, i.e. floor for non-negative values and ceiling for
negative ones.  Not rounding to nearest. -/
def astype_int (q : ℚ) : Int := if 0 ≤ q then ⌊q⌋ else ⌈q⌉

/-- The integer pixel written for raw value `x` at bit depth `B`
(line 155-156: `scale_bit_image(image[channel][z], nbits, 0, 0, 255)`
followed by `astype(int)`). -/
def out_pixel (x B : Nat) : Int := astype_int (scale_bit_image x B 0 0 255)

/- ===== z_to_string and filenames (lines 150-156 and 163-171) ===== -/

/-- Embedding of `z_to_string` (lines 163-171): renders `value` in decimal,
left-padded with zeros up to the decimal width of `max_value`. -/
def z_to_string (value max_value : Nat) : String :=
  let max_str := pyStr max_value
  let val_str := pyStr value
  let char_dif : Int := (max_str.length : Int) - (val_str.length : Int)
  if 0 < char_dif then String.mk (List.replicate char_dif.toNat '0') ++ val_str
  else val_str

/-- The depth part of the filename (line 151):
`z_string = 'z' + z_to_string(z, image.shape[z_idx])`.  The second argument
passed by the code is the Z-axis length itself. -/
def z_string (z z_axis_len : Nat) : String := "z" ++ z_to_string z z_axis_len

/-- The filename stem (line 152):
`file_name = base_name + 'c' + str(channel + 1) + z_string`. -/
def file_name (base_name : String) (channel z z_axis_len : Nat) : String :=
  base_name ++ "c" ++ pyStr (channel + 1) ++ z_string z z_axis_len

/-- The name of the image file written inside the channel subdirectory
(line 153: `file_name + '.png'`). -/
def img_file_name (base_name : String) (channel z z_axis_len : Nat) : String :=
  file_name base_name channel z z_axis_len ++ ".png"

/- ===== Metadata record (lines 87-92) and stain extraction (lines 225-227) ===== -/

/-- A value stored in the metadata record: a string, a number, or a
per-channel nested object of the form `{"Stain": label}`. -/
inductive MetaVal where
  | str (s : String)
  | num (q : ℚ)
  | stainEntry (stain : String)
deriving DecidableEq

/-- Embedding of the metadata construction from the job descriptor
(lines 87-92): scalar fields copied verbatim, then one
`Channel{i+1} = {"Stain": stain}` entry per stain, in list order. -/
def build_metadata (channel_stains : List String) (person : String) (hpf : ℚ)
    (treatment : String) : List (String × MetaVal) :=
  [("Person", MetaVal.str person), ("HPF", MetaVal.num hpf),
   ("Treatment", MetaVal.str treatment)]
  ++ channel_stains.enum.map fun p => ("Channel" ++ pyStr (p.1 + 1), MetaVal.stainEntry p.2)

/-- Lexicographic less-or-equal on code-point lists, the comparison Python
uses to sort a list of strings. -/
def str_leb : List Char → List Char → Bool
  | [], _ => true
  | _ :: _, [] => false
  | a :: as, b :: bs => if a < b then true else if b < a then false else str_leb as bs

/-- Embedding of the stain extraction in `__main__` (lines 225-227): the
keys of the `stains` mapping are sorted as strings and the stains are read
back in that key order.  Python's stable `list.sort` is embedded as a stable
comparison sort. -/
def main_stains (stains : List (String × String)) : List String :=
  let stain_keys := List.insertionSort (fun a b => str_leb a.data b.data = true)
    (stains.map Prod.fst)
  stain_keys.map fun k => ((stains.lookup k).getD "")

/- ===== Directory materialization (lines 114-120 and 139-147) ===== -/

/-- Embedding of Python's `str.lower` on the ASCII strings compared here:
per-character lowercasing. -/
def py_lower (s : String) : String := String.mk (s.data.map Char.toLower)

/-- The overwrite confirmation test (lines 119 and 144):
`confirm.lower() in ['y', 'yes']`. -/
def confirm_accepts (confirm : String) : Bool :=
  (["y", "yes"] : List String).contains (py_lower confirm)

/-- Result of one directory-materialization step: either execution continues
with the directory holding the given files, or the process terminated via
`sys.exit` with the given status, the directory left holding the given
files. -/
inductive DirOutcome where
  | proceed (files : List String)
  | exited (status : Nat) (files : List String)
deriving DecidableEq

/-- Embedding of the parent-directory step (lines 114-120): create when
absent; when present, prompt — on decline `sys.exit()` (which exits with
status `0`), on acceptance continue with the contents untouched (there is no
`rmtree` on this path). -/
def parent_dir_step (existing : Option (List String)) (confirm : String) : DirOutcome :=
  match existing with
  | none => DirOutcome.proceed []
  | some files =>
    if confirm_accepts confirm then DirOutcome.proceed files
    else DirOutcome.exited 0 files

/-- Embedding of the channel-subdirectory step (lines 139-147): create when
absent; when present, prompt — on decline `sys.exit()` (status `0`) with the
contents untouched, on acceptance `shutil.rmtree` then `makedirs`, so the
directory is empty before any slice is written. -/
def channel_dir_step (existing : Option (List String)) (confirm : String) : DirOutcome :=
  match existing with
  | none => DirOutcome.proceed []
  | some files =>
    if confirm_accepts confirm then DirOutcome.proceed []
    else DirOutcome.exited 0 files

/- ===== Axis lookup and slice selection (lines 123-131 and 150-156) ===== -/

/-- Embedding of `axes_dict = {axes[i]: i for i in range(len(axes))}`
followed by `axes_dict[label]` (lines 123-131).  A dict comprehension keeps
the last index for a repeated label, hence `getLast?`. -/
def axes_dict_get (axes : List Char) (label : Char) : Option Nat :=
  (axes.enum.filterMap fun p => if p.2 = label then some p.1 else none).getLast?

/-- Embedding of the channel/Z axis location (lines 124-131): the located
positions of `'C'` and `'Z'`, or the `ValueError` message raised. -/
def locate_axes (axes : List Char) : Except String (Nat × Nat) :=
  match axes_dict_get axes 'C' with
  | none => Except.error "Error: No channel axis found."
  | some channel_idx =>
    match axes_dict_get axes 'Z' with
    | none => Except.error "Error: No z-axis found."
    | some z_idx => Except.ok (channel_idx, z_idx)

/-- Embedding of the slice the code actually reads (line 155):
`image[channel][z]` indexes the first and second array axes, whatever the
axis ordering is.  A two-axis volume is a function of its two indices. -/
def code_slice2 (image : Nat → Nat → Nat) (channel z : Nat) : Nat := image channel z

/-- Modelled from the spec: the plane of a two-axis volume taken at index
`channel` along the located channel-axis position and at index `z` along the
located Z-axis position (the other of the two positions). -/
def spec_slice2 (image : Nat → Nat → Nat) (channel_idx channel z : Nat) : Nat :=
  if channel_idx = 0 then image channel z else image z channel

/- ===== Job-descriptor key check (lines 193-204) ===== -/

/-- The `expected_keys` list of `check_input_dict` (lines 194-195). -/
def expected_keys : List String :=
  ["oif_file", "stains", "person", "hpf", "treatment", "out_dir", "prefix"]

/-- Embedding of the key check of `check_input_dict` (lines 196-197):
`all(x in expected_keys for x in input_data.keys())` — every key present in
the descriptor must be among the expected ones (note the direction: nothing
requires an expected key to be present). -/
def key_check (keys : List String) : Bool :=
  keys.all fun x => expected_keys.contains x

/- ===== Command-line surface (lines 206-232) ===== -/

/-- Does the token start with `'-'`?  (`getopt` stops option processing at
the first token that does not, or that is exactly `"-"`.) -/
def starts_with_dash (s : String) : Bool :=
  match s.data with
  | [] => false
  | c :: _ => c = '-'

/-- Embedding of Python's `str.endswith`: suffix test on the code points. -/
def py_endswith (s suffix_str : String) : Bool := suffix_str.data.isSuffixOf s.data

/-- Character-list prefix test, used for getopt's long-option prefix
matching. -/
def is_pre : List Char → List Char → Bool
  | [], _ => true
  | _ :: _, [] => false
  | a :: as, b :: bs => a = b && is_pre as bs

/-- Python getopt's long-option matching for the single long option "help":
the part of a token after the leading `--` matches when it is a non-empty
prefix of "help" (getopt accepts any unambiguous prefix and records the
full option name); a token containing `=` is a `GetoptError` because "help"
takes no argument. -/
def matches_long_help (body : List Char) : Bool :=
  !body.contains '=' && !body.isEmpty && is_pre body ['h', 'e', 'l', 'p']

/-- Python getopt's handling of a clustered short-option token for the
option string "h": each character of the cluster must be the short option
`h` (each one yields a `-h` entry); any other character is a
`GetoptError`. -/
def do_shorts_h : List Char → Bool
  | [] => true
  | c :: cs => c = 'h' && do_shorts_h cs

/-- Result of `getopt.getopt(argv, "h", ["help"])`: the recognized option
tokens plus the remaining positional arguments, or a `GetoptError`. -/
inductive GetoptResult where
  | ok (opts : List String) (args : List String)
  | err
deriving DecidableEq

/-- Embedding of `getopt.getopt(sys.argv[1:], "h", ["help"])` (line 209) for
this option table: option processing stops at `--` or at the first token
that is not `-`-initial (or is the bare `-`); a `--`-initial token is
matched as a long option with prefix matching, so `--h`, `--he`, `--hel`
and `--help` are all recorded as `--help`; any other `-`-initial token is a
short-option cluster, each `h` in it recorded as a `-h`, any other
character raising `GetoptError`; unmatched long options and `--...=...`
tokens also raise `GetoptError`. -/
def getopt_h : List String → GetoptResult
  | [] => GetoptResult.ok [] []
  | a :: rest =>
    if a = "--" then GetoptResult.ok [] rest
    else if a = "-" then GetoptResult.ok [] (a :: rest)
    else if starts_with_dash a then
      match a.data with
      | '-' :: '-' :: body =>
        if matches_long_help body then
          match getopt_h rest with
          | GetoptResult.ok opts args => GetoptResult.ok ("--help" :: opts) args
          | GetoptResult.err => GetoptResult.err
        else GetoptResult.err
      | '-' :: cluster =>
        if do_shorts_h cluster then
          match getopt_h rest with
          | GetoptResult.ok opts args =>
            GetoptResult.ok (List.replicate cluster.length "-h" ++ opts) args
          | GetoptResult.err => GetoptResult.err
        else GetoptResult.err
      | _ => GetoptResult.ok [] (a :: rest)
    else GetoptResult.ok [] (a :: rest)

/-- Observable outcome of the `__main__` block (lines 206-232): whether the
failure notice was printed, whether usage was printed, the process exit
status, and whether the job (`oif_to_dir_tree`) was started. -/
structure CliOutcome where
  printed_failure : Bool
  printed_usage : Bool
  exit_status : Nat
  runs_job : Bool
deriving DecidableEq

/-- Embedding of the `__main__` control flow (lines 206-232): a
`GetoptError` prints the failure notice and usage and exits `1`; `-h` or
`--help` prints usage and exits `0`; exactly one positional argument ending
in `.json` starts the job; anything else prints usage and falls off the end
of the script, which terminates the process with status `0`. -/
def main_cli (argv : List String) : CliOutcome :=
  match getopt_h argv with
  | GetoptResult.err => ⟨true, true, 1, false⟩
  | GetoptResult.ok opts args =>
    if opts.contains "-h" || opts.contains "--help" then ⟨false, true, 0, false⟩
    else if args.length = 1 && py_endswith (args.headD "") ".json" then ⟨false, false, 0, true⟩
    else ⟨false, true, 0, false⟩

/- ===== Facts about the decimal rendering ===== -/

theorem toDigitsRevAux_eq (f n : Nat) (h : n ≤ f) : toDigitsRevAux f n = Nat.digits 10 n := by
  induction f generalizing n with
  | zero =>
    interval_cases n
    simp [toDigitsRevAux]
  | succ f ih =>
    match n with
    | 0 => simp [toDigitsRevAux]
    | n + 1 =>
      rw [toDigitsRevAux, Nat.digits_def' (by norm_num) (Nat.succ_pos n)]
      congr 1
      exact ih _ (Nat.le_of_lt_succ
        (Nat.lt_of_lt_of_le (Nat.div_lt_self (Nat.succ_pos n) (by norm_num)) h))

theorem pyDigits_eq (n : Nat) : pyDigits n = Nat.digits 10 n :=
  toDigitsRevAux_eq n n le_rfl

theorem pyStrDigits_lt_base (n : Nat) : ∀ d ∈ pyStrDigits n, d < 10 := by
  intro d hd
  unfold pyStrDigits at hd
  split at hd
  · simp at hd
    omega
  · rw [pyDigits_eq] at hd
    exact Nat.digits_lt_base (by norm_num) (List.mem_reverse.mp hd)

theorem digitsVal_foldl_acc (l : List Nat) (acc : Nat) :
    List.foldl (fun a d => a * 10 + d) acc l = acc * 10 ^ l.length + digitsVal l := by
  induction l generalizing acc with
  | nil => simp [digitsVal]
  | cons d l ih =>
    unfold digitsVal
    simp only [List.foldl_cons, List.length_cons]
    rw [ih (acc * 10 + d), ih (0 * 10 + d)]
    ring

theorem digitsVal_cons (d : Nat) (l : List Nat) :
    digitsVal (d :: l) = d * 10 ^ l.length + digitsVal l := by
  unfold digitsVal
  simp only [List.foldl_cons]
  rw [digitsVal_foldl_acc]
  unfold digitsVal
  ring

theorem digitsVal_append (p q : List Nat) :
    digitsVal (p ++ q) = digitsVal p * 10 ^ q.length + digitsVal q := by
  unfold digitsVal
  rw [List.foldl_append, digitsVal_foldl_acc]
  rfl

theorem digitsVal_lt (l : List Nat) (h : ∀ d ∈ l, d < 10) :
    digitsVal l < 10 ^ l.length := by
  induction l with
  | nil => simp [digitsVal]
  | cons d l ih =>
    rw [digitsVal_cons]
    have hd : d < 10 := h d (List.mem_cons_self d l)
    have hl : digitsVal l < 10 ^ l.length :=
      ih fun x hx => h x (List.mem_cons_of_mem _ hx)
    calc d * 10 ^ l.length + digitsVal l
        < d * 10 ^ l.length + 10 ^ l.length := by omega
      _ = (d + 1) * 10 ^ l.length := by ring
      _ ≤ 10 * 10 ^ l.length := Nat.mul_le_mul (by omega) (le_refl _)
      _ = 10 ^ (d :: l).length := by rw [List.length_cons]; ring

theorem digitsVal_replicate_zero (k : Nat) : digitsVal (List.replicate k 0) = 0 := by
  induction k with
  | zero => simp [digitsVal]
  | succ k ih => rw [List.replicate_succ, digitsVal_cons, ih]; ring

theorem digitsVal_reverse (l : List Nat) : digitsVal l.reverse = Nat.ofDigits 10 l := by
  induction l with
  | nil => simp [digitsVal, Nat.ofDigits_nil]
  | cons d l ih =>
    rw [List.reverse_cons, digitsVal_append, ih, Nat.ofDigits_cons]
    have h1 : digitsVal [d] = d := by simp [digitsVal]
    simp only [List.length_singleton, h1]
    push_cast
    ring

theorem pyStrDigits_val (n : Nat) : digitsVal (pyStrDigits n) = n := by
  unfold pyStrDigits
  split
  · next h => simp [digitsVal, h]
  · rw [pyDigits_eq, digitsVal_reverse, Nat.ofDigits_digits]

theorem pyStrDigits_len_pos (n : Nat) : 1 ≤ (pyStrDigits n).length := by
  unfold pyStrDigits
  split
  · simp
  · next h =>
    rw [pyDigits_eq, List.length_reverse]
    have h10 : Nat.digits 10 n ≠ [] := Nat.digits_ne_nil_iff_ne_zero.mpr h
    exact List.length_pos.mpr h10

theorem pyStrDigits_len_mono {m n : Nat} (h : m ≤ n) :
    (pyStrDigits m).length ≤ (pyStrDigits n).length := by
  by_cases hm : m = 0
  · subst hm
    simpa [pyStrDigits] using pyStrDigits_len_pos n
  · have hn : n ≠ 0 := by omega
    simp only [pyStrDigits, hm, hn, if_false, pyDigits_eq, List.length_reverse]
    exact Nat.le_digits_len_le 10 m n h

theorem pyStr_length (n : Nat) : (pyStr n).length = (pyStrDigits n).length := by
  simp [pyStr, String.length]

/- ===== Structure of z_to_string output ===== -/

theorem data_append (s t : String) : (s ++ t).data = s.data ++ t.data := rfl

theorem z_to_string_data (v m : Nat)
    (h : (pyStrDigits v).length ≤ (pyStrDigits m).length) :
    (z_to_string v m).data =
      (List.replicate ((pyStrDigits m).length - (pyStrDigits v).length) 0
        ++ pyStrDigits v).map Nat.digitChar := by
  unfold z_to_string
  simp only [pyStr_length]
  have htn : (((pyStrDigits m).length : Int) - ((pyStrDigits v).length : Int)).toNat
      = (pyStrDigits m).length - (pyStrDigits v).length := by omega
  by_cases hlt : (pyStrDigits v).length < (pyStrDigits m).length
  · rw [if_pos (by omega)]
    rw [data_append, htn]
    simp [pyStr, List.map_append, List.map_replicate, Nat.digitChar]
  · have heq : (pyStrDigits m).length = (pyStrDigits v).length := by omega
    rw [if_neg (by omega)]
    simp [pyStr, heq, List.map_append]

theorem z_to_string_length (v m : Nat)
    (h : (pyStrDigits v).length ≤ (pyStrDigits m).length) :
    (z_to_string v m).length = (pyStrDigits m).length := by
  show (z_to_string v m).data.length = _
  rw [z_to_string_data v m h]
  simp only [List.length_map, List.length_append, List.length_replicate]
  omega

/- ===== Lexicographic order on digit strings ===== -/

theorem digitChar_lt_iff :
    ∀ a, a < 10 → ∀ b, b < 10 → (Nat.digitChar a < Nat.digitChar b ↔ a < b) := by
  decide

theorem map_digitChar_append_lt (s : List Nat) :
    ∀ (t : List Nat), s.length = t.length → (∀ d ∈ s, d < 10) → (∀ d ∈ t, d < 10) →
      digitsVal s < digitsVal t → ∀ (u v : List Char),
      List.Lex (· < ·) (s.map Nat.digitChar ++ u) (t.map Nat.digitChar ++ v) := by
  induction s with
  | nil =>
    intro t hlen _ _ hv u v
    have ht : t = [] := by cases t <;> simp_all
    subst ht
    simp [digitsVal] at hv
  | cons a as ih =>
    intro t hlen hs ht hv u v
    cases t with
    | nil => simp at hlen
    | cons b bs =>
      simp only [List.length_cons] at hlen
      have hlen' : as.length = bs.length := by omega
      have ha : a < 10 := hs a (List.mem_cons_self a as)
      have hb : b < 10 := ht b (List.mem_cons_self b bs)
      rcases Nat.lt_trichotomy a b with hab | hab | hab
      · simp only [List.map_cons, List.cons_append]
        exact List.Lex.rel ((digitChar_lt_iff a ha b hb).mpr hab)
      · subst hab
        simp only [List.map_cons, List.cons_append]
        refine List.Lex.cons ?_
        refine ih bs hlen' (fun d hd => hs d (List.mem_cons_of_mem _ hd))
          (fun d hd => ht d (List.mem_cons_of_mem _ hd)) ?_ u v
        rw [digitsVal_cons, digitsVal_cons, hlen'] at hv
        omega
      · exfalso
        have hbs : digitsVal bs < 10 ^ bs.length :=
          digitsVal_lt bs fun d hd => ht d (List.mem_cons_of_mem _ hd)
        rw [digitsVal_cons, digitsVal_cons, hlen'] at hv
        have h1 : b * 10 ^ bs.length + digitsVal bs < (b + 1) * 10 ^ bs.length := by
          calc b * 10 ^ bs.length + digitsVal bs
              < b * 10 ^ bs.length + 10 ^ bs.length := by omega
            _ = (b + 1) * 10 ^ bs.length := by ring
        have h2 : (b + 1) * 10 ^ bs.length ≤ a * 10 ^ bs.length :=
          Nat.mul_le_mul (by omega) (le_refl _)
        omega

theorem lex_append_left (p : List Char) {s t : List Char}
    (h : List.Lex (· < ·) s t) : List.Lex (· < ·) (p ++ s) (p ++ t) := by
  induction p with
  | nil => simpa
  | cons c p ih =>
    simp only [List.cons_append]
    exact List.Lex.cons ih

/- ===== Claim theorems ===== -/

/-- C2: for every bit depth `B ≥ 1` and integers `x ≤ y` in `[0, 2^B - 1]`,
`scale_bit_image(x, B, 0, 0, 255)` is monotonically non-decreasing in `x`,
equals `0` at `x = 0`, and equals `255` at `x = 2^B - 1`, in exact
arithmetic. -/
theorem C2_scale_range (B : Nat) (hB : 1 ≤ B) :
    (∀ x y : Nat, x ≤ y → y ≤ 2 ^ B - 1 →
      scale_bit_image x B 0 0 255 ≤ scale_bit_image y B 0 0 255)
    ∧ scale_bit_image 0 B 0 0 255 = 0
    ∧ scale_bit_image ((2 ^ B - 1 : Nat) : ℚ) B 0 0 255 = 255 := by
  have h2 : (2 : ℚ) ≤ 2 ^ B := by
    calc (2 : ℚ) = 2 ^ 1 := (pow_one 2).symm
      _ ≤ 2 ^ B := by apply pow_le_pow_right₀ (by norm_num) hB
  have hd : (0 : ℚ) < 2 ^ B - 1 := by linarith
  refine ⟨?_, ?_, ?_⟩
  · intro x y hxy _
    unfold scale_bit_image
    simp only [sub_zero, add_zero]
    apply mul_le_mul_of_nonneg_left (by exact_mod_cast hxy)
    exact div_nonneg (by norm_num) (le_of_lt hd)
  · unfold scale_bit_image
    simp
  · unfold scale_bit_image
    have h1 : (1 : Nat) ≤ 2 ^ B := Nat.one_le_two_pow
    have hcast : ((2 ^ B - 1 : Nat) : ℚ) = 2 ^ B - 1 := by
      push_cast [h1]
      ring
    rw [hcast]
    simp only [sub_zero, add_zero]
    rw [div_mul_cancel₀ _ (ne_of_gt hd)]

/-- C2 witness: the endpoint facts at the concrete bit depth `B = 8`. -/
theorem C2_scale_range_witness :
    scale_bit_image ((2 ^ 8 - 1 : Nat) : ℚ) 8 0 0 255 = 255
    ∧ scale_bit_image 0 8 0 0 255 = 0 :=
  ⟨(C2_scale_range 8 (by norm_num)).2.2, (C2_scale_range 8 (by norm_num)).2.1⟩

/-- C9: the float-to-integer conversion applied to every rescaled value is
truncation (it drops the fractional part: on these non-negative values it is
the floor), not rounding to nearest; at bit depth 9 and raw value 2 the code
writes 0 where rounding to nearest would give 1. -/
theorem C9_truncates_not_rounds :
    (∀ B x : Nat, out_pixel x B = ⌊scale_bit_image x B 0 0 255⌋)
    ∧ out_pixel 2 9 = 0
    ∧ round (scale_bit_image ((2 : Nat) : ℚ) 9 0 0 255) = 1 := by
  have hval : ∀ B x : Nat, (0 : ℚ) ≤ scale_bit_image x B 0 0 255 := by
    intro B x
    unfold scale_bit_image
    simp only [sub_zero, add_zero]
    apply mul_nonneg
    · apply div_nonneg (by norm_num)
      rw [sub_nonneg]
      exact one_le_pow₀ (by norm_num)
    · exact Nat.cast_nonneg x
  have h1 : scale_bit_image ((2 : Nat) : ℚ) 9 0 0 255 = 510 / 511 := by
    unfold scale_bit_image
    norm_num
  refine ⟨?_, ?_, ?_⟩
  · intro B x
    unfold out_pixel astype_int
    rw [if_pos (hval B x)]
  · unfold out_pixel astype_int
    rw [h1, if_pos (by norm_num)]
    norm_num [Int.floor_eq_iff]
  · rw [h1, round_eq]
    norm_num [Int.floor_eq_iff]

/-- C4 counterexample: the claim says the depth suffix is zero-padded to
width `len(str(L - 1))`; at `L = 10` that width is 1, but the generated
suffix for `z = 0` is `"00"` of length 2 (the code pads to the width of
`str(L)`, which is passed as `max_value`). -/
theorem C4_counterexample : ¬ (z_to_string 0 10).length = (pyStr (10 - 1)).length := by
  decide

/-- C4 (amended): the generated depth suffix for depth `z` of a Z axis of
length `L` is `z` zero-padded to width `len(str(L))` — the code passes the
axis length `L` itself as `max_value` — so all suffixes for that volume have
the equal string length `len(str(L))`. -/
theorem C4_suffix_width (L z : Nat) (hz : z < L) :
    (z_to_string z L).length = (pyStr L).length := by
  rw [pyStr_length]
  exact z_to_string_length z L (pyStrDigits_len_mono (by omega))

/-- C4 witness: the amended padding width at `L = 10`, `z = 3`. -/
theorem C4_suffix_width_witness : (z_to_string 3 10).length = (pyStr 10).length :=
  C4_suffix_width 10 3 (by decide)

/-- C5: within a channel subdirectory, the filenames generated for two depth
indices `z1 < z2 < L` compare lexicographically in the same order as the
numeric depth indices. -/
theorem C5_filename_order (base_name : String) (channel z1 z2 L : Nat)
    (h12 : z1 < z2) (h2L : z2 < L) :
    img_file_name base_name channel z1 L < img_file_name base_name channel z2 L := by
  have hle1 : (pyStrDigits z1).length ≤ (pyStrDigits L).length :=
    pyStrDigits_len_mono (by omega)
  have hle2 : (pyStrDigits z2).length ≤ (pyStrDigits L).length :=
    pyStrDigits_len_mono (by omega)
  rw [String.lt_iff_toList_lt]
  show List.Lex (· < ·) (img_file_name base_name channel z1 L).data
    (img_file_name base_name channel z2 L).data
  unfold img_file_name file_name z_string
  simp only [data_append, List.append_assoc]
  apply lex_append_left
  apply lex_append_left
  apply lex_append_left
  apply lex_append_left
  rw [z_to_string_data z1 L hle1, z_to_string_data z2 L hle2]
  apply map_digitChar_append_lt
  · simp only [List.length_append, List.length_replicate]
    omega
  · intro d hd
    rcases List.mem_append.mp hd with h | h
    · have := List.eq_of_mem_replicate h
      omega
    · exact pyStrDigits_lt_base z1 d h
  · intro d hd
    rcases List.mem_append.mp hd with h | h
    · have := List.eq_of_mem_replicate h
      omega
    · exact pyStrDigits_lt_base z2 d h
  · simp only [digitsVal_append, digitsVal_replicate_zero, pyStrDigits_val,
      zero_mul, zero_add]
    exact h12


/-- C5 witness: concrete ordered filenames at `L = 10`, depths 2 and 3. -/
theorem C5_filename_order_witness :
    img_file_name "embryo" 0 2 10 < img_file_name "embryo" 0 3 10 :=
  C5_filename_order "embryo" 0 2 3 10 (by decide) (by decide)

/-- C8: building the metadata record from a job descriptor with 3 stains
(keys "1", "2", "3") produces exactly the scalar fields Person, HPF and
Treatment copied verbatim, followed by exactly three per-channel stain
entries Channel1, Channel2, Channel3 whose labels follow the descriptor's
channel-index order. -/
theorem C8_metadata_roundtrip (s1 s2 s3 person treatment : String) (hpf : ℚ) :
    build_metadata (main_stains [("1", s1), ("2", s2), ("3", s3)]) person hpf treatment =
      [("Person", MetaVal.str person), ("HPF", MetaVal.num hpf),
       ("Treatment", MetaVal.str treatment),
       ("Channel1", MetaVal.stainEntry s1), ("Channel2", MetaVal.stainEntry s2),
       ("Channel3", MetaVal.stainEntry s3)] := by
  have hs : main_stains [("1", s1), ("2", s2), ("3", s3)] = [s1, s2, s3] := rfl
  have h1 : ("Channel" : String) ++ pyStr (0 + 1) = "Channel1" := rfl
  have h2 : ("Channel" : String) ++ pyStr (1 + 1) = "Channel2" := rfl
  have h3 : ("Channel" : String) ++ pyStr (2 + 1) = "Channel3" := rfl
  have henum : [s1, s2, s3].enum = [(0, s1), (1, s2), (2, s3)] := rfl
  rw [hs]
  unfold build_metadata
  rw [henum]
  simp only [List.map_cons, List.map_nil]
  rw [h1, h2, h3]
  rfl

/-- C7: for an existing channel subdirectory with pre-existing files,
declining the overwrite prompt leaves the files untouched and terminates
without writing slices, while accepting removes all pre-existing files
(recursive delete plus recreate) before any slice is written; the parent
directory is never cleaned on acceptance. -/
theorem C7_overwrite_semantics (files : List String) (confirm : String) :
    (confirm_accepts confirm = false →
      channel_dir_step (some files) confirm = DirOutcome.exited 0 files)
    ∧ (confirm_accepts confirm = true →
      channel_dir_step (some files) confirm = DirOutcome.proceed [])
    ∧ (confirm_accepts confirm = true →
      parent_dir_step (some files) confirm = DirOutcome.proceed files) := by
  refine ⟨?_, ?_, ?_⟩ <;> intro h <;>
    simp [channel_dir_step, parent_dir_step, h]

/-- C7 witness: a concrete declined and a concrete accepted prompt over a
subdirectory holding one pre-existing file. -/
theorem C7_overwrite_semantics_witness :
    channel_dir_step (some ["old.png"]) "n" = DirOutcome.exited 0 ["old.png"]
    ∧ channel_dir_step (some ["old.png"]) "yes" = DirOutcome.proceed []
    ∧ parent_dir_step (some ["old.png"]) "yes" = DirOutcome.proceed ["old.png"] :=
  ⟨(C7_overwrite_semantics ["old.png"] "n").1 (by decide),
   (C7_overwrite_semantics ["old.png"] "yes").2.1 (by decide),
   (C7_overwrite_semantics ["old.png"] "yes").2.2 (by decide)⟩

/-- C6 counterexample: declining an overwrite prompt runs `sys.exit()` with
no argument, which terminates with exit status 0 — not the non-zero-
equivalent status the claim asserts — at both prompts. -/
theorem C6_counterexample :
    parent_dir_step (some ["f.png"]) "n" = DirOutcome.exited 0 ["f.png"]
    ∧ channel_dir_step (some ["g.png"]) "no" = DirOutcome.exited 0 ["g.png"] := by
  decide

/-- C6 (amended): if the operator declines either overwrite-confirmation
prompt, the process terminates immediately, but with exit status 0
(`sys.exit()` is called with no argument), not a non-zero status. -/
theorem C6_decline_exits_zero (files : List String) (confirm : String)
    (h : confirm_accepts confirm = false) :
    parent_dir_step (some files) confirm = DirOutcome.exited 0 files
    ∧ channel_dir_step (some files) confirm = DirOutcome.exited 0 files := by
  constructor <;> simp [parent_dir_step, channel_dir_step, h]

/-- C6 witness: the declined prompt at a concrete directory state. -/
theorem C6_decline_exits_zero_witness :
    parent_dir_step (some ["a.png"]) "q" = DirOutcome.exited 0 ["a.png"]
    ∧ channel_dir_step (some ["a.png"]) "q" = DirOutcome.exited 0 ["a.png"] :=
  C6_decline_exits_zero ["a.png"] "q" (by decide)

/-- C3: with axis ordering "ZC" the located channel axis is position 1 and
the located Z axis is position 0, yet the written slice `image[channel][z]`
indexes the first two array axes directly, so for channel 1, depth 0 the
code reads the entry at multi-index (1, 0) — value 10 in the test volume —
while the plane at the located axis positions holds the entry at (0, 1) —
value 1.  The writer does assume Channel and Z occupy fixed positions. -/
theorem C3_fixed_position_slice :
    locate_axes ['Z', 'C'] = Except.ok (1, 0)
    ∧ code_slice2 (fun i j => 10 * i + j) 1 0 = 10
    ∧ spec_slice2 (fun i j => 10 * i + j) 1 1 0 = 1
    ∧ code_slice2 (fun i j => 10 * i + j) 1 0
      ≠ spec_slice2 (fun i j => 10 * i + j) 1 1 0 :=
  ⟨rfl, rfl, rfl, by decide⟩

/-- C1: the key check of `check_input_dict` accepts a descriptor whose only
key is `oif_file`, although the required key `stains` (and five others) is
missing — `all(x in expected_keys for x in input_data.keys())` tests the
wrong inclusion direction, so missing required keys are never detected. -/
theorem C1_missing_key_accepted :
    key_check ["oif_file"] = true
    ∧ "stains" ∈ expected_keys
    ∧ "stains" ∉ (["oif_file"] : List String) := by
  decide

/-- C10 counterexample: invoked with no arguments at all, the script prints
usage and falls off the end of the `__main__` block, terminating with exit
status 0 — not the non-zero status the claim asserts for non-help argument
combinations. -/
theorem C10_counterexample :
    main_cli [] = ⟨false, true, 0, false⟩
    ∧ main_cli ["input.txt"] = ⟨false, true, 0, false⟩ := by
  decide

/-- C10 (amended): the help flag — including getopt's accepted long-option
prefix forms such as `--h` and clustered short forms such as `-hh` — prints
usage and exits 0; an argument-parsing failure prints the failure notice,
then usage, and exits 1; every run that does not start the job prints
usage; and every path other than a parsing failure — including a wrong
positional-argument combination — ends the process with exit status 0. -/
theorem C10_cli_surface (argv : List String) :
    main_cli ["-h"] = ⟨false, true, 0, false⟩
    ∧ main_cli ["--help"] = ⟨false, true, 0, false⟩
    ∧ main_cli ["--h"] = ⟨false, true, 0, false⟩
    ∧ main_cli ["-hh"] = ⟨false, true, 0, false⟩
    ∧ (getopt_h argv = GetoptResult.err → main_cli argv = ⟨true, true, 1, false⟩)
    ∧ ((main_cli argv).runs_job = false → (main_cli argv).printed_usage = true)
    ∧ ((main_cli argv).printed_failure = false → (main_cli argv).exit_status = 0) := by
  refine ⟨by decide, by decide, by decide, by decide, ?_, ?_, ?_⟩
  · intro h
    simp [main_cli, h]
  · rcases hg : getopt_h argv with ⟨opts, args⟩ | _
    · simp only [main_cli, hg]
      split
      · simp
      · split <;> simp
    · simp [main_cli, hg]
  · rcases hg : getopt_h argv with ⟨opts, args⟩ | _
    · simp only [main_cli, hg]
      split
      · simp
      · split <;> simp
    · simp [main_cli, hg]

/-- C10 witness: a getopt failure (an unrecognized option) exits with
status 1 after printing the failure notice and usage. -/
theorem C10_cli_surface_witness :
    main_cli ["--bad"] = ⟨true, true, 1, false⟩ :=
  (C10_cli_surface ["--bad"]).2.2.2.2.1 (by decide)
